import Mathlib

/-!
# Verification of the csh-caffeine icon tooling

Shallow embedding of the ICO container encoder
(`src/caffeine/Assets/Icons/Sources/create_multisize_ico.py`), the ICO
structure verifier (`verify_ico_structure.py`), the procedural drawing
geometry (`draw_coffee_cup` in `create_multisize_ico.py` and
`convert_icons_pil.py`) and the batch SVG converter loop
(`convert_icons.py`), together with proofs of the specification's
testable properties.

Bytes are modelled as `Nat` values (each in `0..255` where the code packs
them); byte streams as `List Nat`.  `struct.pack` raises for out-of-range
values instead of wrapping, so theorems about packed fields carry the
in-range hypotheses (`count < 2^16`, 4-byte fields `< 2^32`) under which
the model below agrees with the Python code byte for byte.
-/

/-- A square (or, in general, rectangular) RGBA raster image.  Only the
dimensions are relevant to the container layout; the pixel contents enter
solely through the opaque PNG encoding `enc : Bitmap → List Nat` that the
encoder theorems quantify over (`img.save(png_buffer, format='PNG')`). -/
structure Bitmap where
  width : Nat
  height : Nat
deriving Repr, DecidableEq

/-- Little-endian 2-byte packing, `struct.pack('<H', n)` (in-range case). -/
def pack16 (n : Nat) : List Nat :=
  [n % 256, n / 256 % 256]

/-- Little-endian 4-byte packing, `struct.pack('<I', n)` (in-range case). -/
def pack32 (n : Nat) : List Nat :=
  [n % 256, n / 256 % 256, n / 65536 % 256, n / 16777216 % 256]

/-- Dimension byte written by the encoder: `width if width < 256 else 0`. -/
def encDim (n : Nat) : Nat :=
  if n < 256 then n else 0

/-- The 16-byte ICONDIRENTRY the encoder packs for one image:
`struct.pack('<BBBBHHII', w, h, 0, 0, 1, 32, len(png_data), offset)`. -/
def dirEntry (img : Bitmap) (payloadLen offset : Nat) : List Nat :=
  [encDim img.width, encDim img.height, 0, 0]
    ++ pack16 1 ++ pack16 32 ++ pack32 payloadLen ++ pack32 offset

/-- The directory-entry loop of `create_ico_file`: one `dirEntry` per
(image, payload) pair, threading `offset += len(png_data)`. -/
def entriesBytes : List (Bitmap × List Nat) → Nat → List Nat
  | [], _ => []
  | (img, png) :: rest, offset =>
      dirEntry img png.length offset ++ entriesBytes rest (offset + png.length)

/-- `create_ico_file(images, ...)` from `create_multisize_ico.py`:
6-byte ICONDIR header, one 16-byte ICONDIRENTRY per image with offsets
starting at `6 + 16*len(images)`, then all PNG payloads concatenated.
`enc` stands for the PNG serialisation of a bitmap. -/
def create_ico_file (enc : Bitmap → List Nat) (images : List Bitmap) : List Nat :=
  let image_data_list := images.map enc
  pack16 0 ++ pack16 1 ++ pack16 images.length
    ++ entriesBytes (images.zip image_data_list) (6 + 16 * images.length)
    ++ image_data_list.flatten

/-- `f.read`-style byte access: byte `i` of the stream (out of range reads
never happen on the paths the verifier takes after its length checks). -/
def readByte (bs : List Nat) (i : Nat) : Nat :=
  bs.getD i 0

/-- Little-endian 2-byte field starting at byte `i` (`struct.unpack('<H')`). -/
def readU16 (bs : List Nat) (i : Nat) : Nat :=
  readByte bs i + 256 * readByte bs (i + 1)

/-- Little-endian 4-byte field starting at byte `i` (`struct.unpack('<I')`). -/
def readU32 (bs : List Nat) (i : Nat) : Nat :=
  readByte bs i + 256 * readByte bs (i + 1)
    + 65536 * readByte bs (i + 2) + 16777216 * readByte bs (i + 3)

/-- The verifier's dimension reconstruction: `width if width != 0 else 256`. -/
def actualDim (b : Nat) : Nat :=
  if b = 0 then 256 else b

/-- The ICONDIRENTRY scan of `verify_ico_structure`: reads up to `count`
16-byte records starting at byte `pos`; if fewer than 16 bytes remain it
prints `[ERROR] Incomplete ICONDIRENTRY` and `break`s.  Returns the
`(actual_width, actual_height)` pairs collected and whether the
incomplete-entry error was reported. -/
def parseEntries (bs : List Nat) (pos : Nat) : Nat → List (Nat × Nat) × Bool
  | 0 => ([], false)
  | count + 1 =>
      if bs.length < pos + 16 then
        ([], true)
      else
        let w := actualDim (readByte bs pos)
        let h := actualDim (readByte bs (pos + 1))
        let rest := parseEntries bs (pos + 16) count
        ((w, h) :: rest.1, rest.2)

/-- Lexicographic order on `(width, height)` pairs — Python's tuple order
used by `sorted(sizes)`. -/
def lexLe (a b : Nat × Nat) : Bool :=
  if a.1 < b.1 then true
  else if a.1 = b.1 then decide (a.2 ≤ b.2)
  else false

/-- Ordered insertion for `sortPairs`. -/
def insertPair (x : Nat × Nat) : List (Nat × Nat) → List (Nat × Nat)
  | [] => [x]
  | y :: ys => if lexLe x y then x :: y :: ys else y :: insertPair x ys

/-- `sorted(sizes)`: stable sort of the collected pairs in tuple order. -/
def sortPairs : List (Nat × Nat) → List (Nat × Nat)
  | [] => []
  | x :: xs => insertPair x (sortPairs xs)

/-- `expected_sizes = [(16, 16), (24, 24), (32, 32), (48, 48)]`. -/
def expected_sizes : List (Nat × Nat) :=
  [(16, 16), (24, 24), (32, 32), (48, 48)]

/-- Everything `verify_ico_structure` communicates: its return value and
which diagnostics it printed, plus the collected size pairs. -/
structure VResult where
  retval : Bool
  /-- `[ERROR] Not a valid ICO file (type should be 1)` was printed. -/
  typeError : Bool
  /-- `[ERROR] Incomplete ICONDIRENTRY #i` was printed. -/
  truncError : Bool
  /-- `[WARNING] Expected ..., got ...` was printed. -/
  warned : Bool
  /-- `Error reading ICO file: ...` was printed (exception caught). -/
  readError : Bool
  sizes : List (Nat × Nat)
deriving Repr, DecidableEq

/-- `verify_ico_structure(ico_path)` from `verify_ico_structure.py`.
The input is `none` when opening the file raises (e.g. the path does not
exist), otherwise the file's bytes.  A file shorter than 6 bytes makes
`struct.unpack('<HHH', f.read(6))` raise; the `except Exception` handler
catches it and returns `False`.  The `reserved` field (bytes 0..1) is
unpacked and printed (`should be 0`) but never checked.  After the entry
scan — including after a truncation `break` — the function returns `True`
if `sorted(sizes) == expected_sizes`, else prints a warning and returns
`len(sizes) >= 2`. -/
def verify_ico_structure (file : Option (List Nat)) : VResult :=
  match file with
  | none => ⟨false, false, false, false, true, []⟩
  | some bs =>
      if bs.length < 6 then
        ⟨false, false, false, false, true, []⟩
      else
        let type_field := readU16 bs 2
        let count := readU16 bs 4
        if type_field ≠ 1 then
          ⟨false, true, false, false, false, []⟩
        else
          let scan := parseEntries bs 6 count
          if sortPairs scan.1 = expected_sizes then
            ⟨true, false, scan.2, false, false, scan.1⟩
          else
            ⟨decide (scan.1.length ≥ 2), false, scan.2, true, false, scan.1⟩

/-- The stroke widths and radii computed by `draw_coffee_cup` before any
shape is drawn.  (`surface_rx`/`surface_ry` are the coffee-surface ellipse
radii, `cup_radius` the rounded-rectangle corner radius, `handle_width`
and `steam_width` the arc stroke widths.) -/
structure CupGeom where
  cup_radius : Nat
  surface_rx : Nat
  surface_ry : Nat
  handle_width : Nat
  steam_width : Nat
deriving Repr, DecidableEq

/-- `draw_coffee_cup` feature sizes in `create_multisize_ico.py`
(`scale = size / 48.0`).  Python's `int(k * scale)` (truncation of a
nonnegative float) is modelled exactly as `k * size / 48` in `Nat`
division; at every size these scripts rasterize at (16, 24, 32, 48) the
IEEE-double computation and the exact one agree.  `int(2.5 * scale)`
is `5 * size / 96`. -/
def draw_coffee_cup_geom (size : Nat) : CupGeom :=
  { cup_radius := max 1 (2 * size / 48)
    surface_rx := 8 * size / 48
    surface_ry := max 1 (2 * size / 48)
    handle_width := max 1 (5 * size / 96)
    steam_width := max 1 (2 * size / 48) }

/-- `draw_coffee_cup` feature sizes in `convert_icons_pil.py`: identical
to `create_multisize_ico.py` except that `cup_radius = int(2 * scale)` and
`surface_ry = int(2 * scale)` have no `max(1, ...)` clamp.
(`handle_width` is clamped there by `if handle_width < 1: handle_width = 1`,
equivalent to `max 1`.) -/
def draw_coffee_cup_pil_geom (size : Nat) : CupGeom :=
  { cup_radius := 2 * size / 48
    surface_rx := 8 * size / 48
    surface_ry := 2 * size / 48
    handle_width := max 1 (5 * size / 96)
    steam_width := max 1 (2 * size / 48) }

/-- Outcome of one iteration of the `convert_icons.py` batch loop. -/
inductive IconOutcome where
  /-- `Warning: ... not found, skipping...` printed, `continue`. -/
  | skipped
  /-- `svg_to_ico` raised; `except Exception` printed `Error converting ...`. -/
  | errorLogged
  | converted
deriving Repr, DecidableEq

/-- Environment of the batch loop in `convert_icons.py`: whether
`os.path.exists(svg_path)` holds for an icon name, and what
`svg_to_ico` does for it (`Except.error` = raises an exception). -/
structure BatchEnv where
  existsFile : String → Bool
  convert : String → Except String Unit

/-- One iteration of the `for svg_name, ico_name in icons` loop of
`convert_icons.py` `main`: missing source → warn and `continue`;
exception from `svg_to_ico` → caught, logged, loop continues. -/
def processIcon (env : BatchEnv) (name : String) : IconOutcome :=
  if env.existsFile name then
    match env.convert name with
    | .ok _ => .converted
    | .error _ => .errorLogged
  else .skipped

/-- The whole batch loop of `convert_icons.py` `main`: every icon in the
hard-coded list is visited in order, once each. -/
def mainLoop (env : BatchEnv) : List String → List IconOutcome
  | [] => []
  | n :: rest => processIcon env n :: mainLoop env rest

/-- A 16-byte ICONDIRENTRY literal for an `s`×`s` image with zeroed
size/offset fields, used to exhibit concrete verifier inputs. -/
def sampleEntry (s : Nat) : List Nat :=
  [s, s, 0, 0, 1, 0, 32, 0, 0, 0, 0, 0, 0, 0, 0, 0]

/-- A concrete 70-byte ICO stream whose header has `reserved = 7` (bytes
`7, 0`), `type = 1` and `count = 4`, followed by four well-formed
directory entries for sizes 16, 24, 32, 48. -/
def reservedSevenFile : List Nat :=
  [7, 0, 1, 0, 4, 0] ++ sampleEntry 16 ++ sampleEntry 24
    ++ sampleEntry 32 ++ sampleEntry 48

/-- A concrete batch environment: the source file for icon name
`"missing"` is absent, and converting `"bad"` raises an exception. -/
def envW : BatchEnv :=
  { existsFile := fun n => n != "missing"
    convert := fun n => if n = "bad" then .error "boom" else .ok () }

/-! ## Helper lemmas -/

lemma dirEntry_length (img : Bitmap) (n off : Nat) :
    (dirEntry img n off).length = 16 := rfl

lemma entriesBytes_length (pairs : List (Bitmap × List Nat)) (off : Nat) :
    (entriesBytes pairs off).length = 16 * pairs.length := by
  induction pairs generalizing off with
  | nil => rfl
  | cons p rest ih =>
      obtain ⟨img, png⟩ := p
      simp only [entriesBytes, List.length_append, dirEntry_length, ih,
        List.length_cons]
      omega

lemma readByte_after (l₁ l₂ : List Nat) (i j : Nat) (h : j = l₁.length + i) :
    readByte (l₁ ++ l₂) j = readByte l₂ i := by
  subst h
  unfold readByte
  rw [List.getD_append_right l₁ l₂ 0 (l₁.length + i) (Nat.le_add_right _ _),
    Nat.add_sub_cancel_left]

lemma readU16_after (l₁ l₂ : List Nat) (i j : Nat) (h : j = l₁.length + i) :
    readU16 (l₁ ++ l₂) j = readU16 l₂ i := by
  subst h
  unfold readU16
  rw [readByte_after l₁ l₂ i _ rfl, readByte_after l₁ l₂ (i + 1) _ (by omega)]

lemma readU32_after (l₁ l₂ : List Nat) (i j : Nat) (h : j = l₁.length + i) :
    readU32 (l₁ ++ l₂) j = readU32 l₂ i := by
  subst h
  unfold readU32
  rw [readByte_after l₁ l₂ i _ rfl, readByte_after l₁ l₂ (i + 1) _ (by omega),
    readByte_after l₁ l₂ (i + 2) _ (by omega),
    readByte_after l₁ l₂ (i + 3) _ (by omega)]

lemma readU16_pack16 (n : Nat) (h : n < 65536) (l : List Nat) :
    readU16 (pack16 n ++ l) 0 = n := by
  have hv : readU16 (pack16 n ++ l) 0 = n % 256 + 256 * (n / 256 % 256) := rfl
  rw [hv]
  omega

lemma readU32_pack32 (n : Nat) (h : n < 4294967296) (l : List Nat) :
    readU32 (pack32 n ++ l) 0 = n := by
  have hv : readU32 (pack32 n ++ l) 0
      = n % 256 + 256 * (n / 256 % 256) + 65536 * (n / 65536 % 256)
        + 16777216 * (n / 16777216 % 256) := rfl
  rw [hv]
  omega

lemma parseEntries_entriesBytes (pairs : List (Bitmap × List Nat))
    (pre tail : List Nat) (off : Nat) :
    parseEntries (pre ++ (entriesBytes pairs off ++ tail)) pre.length pairs.length
      = (pairs.map fun p => (actualDim (encDim p.1.width), actualDim (encDim p.1.height)),
         false) := by
  induction pairs generalizing pre off with
  | nil => simp [parseEntries, entriesBytes]
  | cons p rest ih =>
      obtain ⟨img, png⟩ := p
      have hXc : entriesBytes ((img, png) :: rest) off ++ tail
          = dirEntry img png.length off
            ++ (entriesBytes rest (off + png.length) ++ tail) := by
        simp [entriesBytes]
      have hlen : ¬ ((pre ++ (entriesBytes ((img, png) :: rest) off ++ tail)).length
          < pre.length + 16) := by
        simp only [hXc, List.length_append, dirEntry_length]
        omega
      have hw : readByte (pre ++ (entriesBytes ((img, png) :: rest) off ++ tail))
          pre.length = encDim img.width := by
        rw [readByte_after pre _ 0 _ (by omega)]
        rfl
      have hh : readByte (pre ++ (entriesBytes ((img, png) :: rest) off ++ tail))
          (pre.length + 1) = encDim img.height := by
        rw [readByte_after pre _ 1 _ rfl]
        rfl
      have hrec : parseEntries (pre ++ (entriesBytes ((img, png) :: rest) off ++ tail))
            (pre.length + 16) rest.length
          = (rest.map fun p => (actualDim (encDim p.1.width), actualDim (encDim p.1.height)),
             false) := by
        have hre : pre ++ (entriesBytes ((img, png) :: rest) off ++ tail)
            = (pre ++ dirEntry img png.length off)
              ++ (entriesBytes rest (off + png.length) ++ tail) := by
          rw [hXc, List.append_assoc]
        have hpl : pre.length + 16 = (pre ++ dirEntry img png.length off).length := by
          simp [dirEntry_length]
        rw [hre, hpl]
        exact ih (pre ++ dirEntry img png.length off) (off + png.length)
      simp only [List.length_cons, parseEntries, if_neg hlen, hw, hh, hrec,
        List.map_cons]

lemma parseEntries_snd_iff (bs : List Nat) (count pos : Nat) :
    (parseEntries bs pos count).2 = true ↔ 0 < count ∧ bs.length < pos + 16 * count := by
  induction count generalizing pos with
  | zero => simp [parseEntries]
  | succ c ih =>
      by_cases h : bs.length < pos + 16
      · simp only [parseEntries, if_pos h]
        constructor
        · intro _
          exact ⟨Nat.succ_pos _, by omega⟩
        · intro _
          trivial
      · simp only [parseEntries, if_neg h]
        rw [ih (pos + 16)]
        constructor
        · rintro ⟨_, hlt⟩
          exact ⟨Nat.succ_pos _, by omega⟩
        · rintro ⟨_, hlt⟩
          exact ⟨by omega, by omega⟩

lemma parseEntries_fst_length (bs : List Nat) (count pos : Nat) :
    (parseEntries bs pos count).1.length = min count ((bs.length - pos) / 16) := by
  induction count generalizing pos with
  | zero => simp [parseEntries]
  | succ c ih =>
      by_cases h : bs.length < pos + 16
      · simp only [parseEntries, if_pos h, List.length_nil]
        omega
      · simp only [parseEntries, if_neg h, List.length_cons]
        rw [ih (pos + 16)]
        omega

lemma insertPair_perm (x : Nat × Nat) (l : List (Nat × Nat)) :
    (insertPair x l).Perm (x :: l) := by
  induction l with
  | nil => exact List.Perm.refl _
  | cons y ys ih =>
      simp only [insertPair]
      split
      · exact List.Perm.refl _
      · exact (ih.cons y).trans (List.Perm.swap x y ys)

lemma sortPairs_perm (l : List (Nat × Nat)) : (sortPairs l).Perm l := by
  induction l with
  | nil => exact List.Perm.refl _
  | cons x xs ih => exact (insertPair_perm x (sortPairs xs)).trans (ih.cons x)

lemma verify_ico_structure_eq (bs : List Nat) (h6 : 6 ≤ bs.length)
    (htype : readU16 bs 2 = 1) :
    verify_ico_structure (some bs)
      = if sortPairs (parseEntries bs 6 (readU16 bs 4)).1 = expected_sizes then
          ⟨true, false, (parseEntries bs 6 (readU16 bs 4)).2, false, false,
            (parseEntries bs 6 (readU16 bs 4)).1⟩
        else
          ⟨decide ((parseEntries bs 6 (readU16 bs 4)).1.length ≥ 2), false,
            (parseEntries bs 6 (readU16 bs 4)).2, true, false,
            (parseEntries bs 6 (readU16 bs 4)).1⟩ := by
  simp only [verify_ico_structure]
  rw [if_neg (by omega), if_neg (by simp [htype])]

lemma verify_sizes (bs : List Nat) (h6 : 6 ≤ bs.length) (htype : readU16 bs 2 = 1) :
    (verify_ico_structure (some bs)).sizes = (parseEntries bs 6 (readU16 bs 4)).1 := by
  rw [verify_ico_structure_eq bs h6 htype]
  split <;> rfl

lemma verify_truncFlag (bs : List Nat) (h6 : 6 ≤ bs.length) (htype : readU16 bs 2 = 1) :
    (verify_ico_structure (some bs)).truncError
      = (parseEntries bs 6 (readU16 bs 4)).2 := by
  rw [verify_ico_structure_eq bs h6 htype]
  split <;> rfl

lemma actualDim_encDim (s : Nat) (h1 : 1 ≤ s) (h2 : s ≤ 256) :
    actualDim (encDim s) = s := by
  rcases Nat.lt_or_ge s 256 with h | h
  · rw [encDim, if_pos h, actualDim, if_neg (by omega)]
  · have hs : s = 256 := by omega
    subst hs
    rfl

lemma zip_map_self {β : Type} (l : List Bitmap) (f : Bitmap → β) :
    l.zip (l.map f) = l.map fun a => (a, f a) := by
  induction l with
  | nil => rfl
  | cons x xs ih => simp [ih]

lemma create_ico_file_eq (enc : Bitmap → List Nat) (imgs : List Bitmap) :
    create_ico_file enc imgs
      = pack16 0 ++ (pack16 1 ++ (pack16 imgs.length
        ++ (entriesBytes (imgs.map fun b => (b, enc b)) (6 + 16 * imgs.length)
            ++ (imgs.map enc).flatten))) := by
  simp [create_ico_file, zip_map_self, List.append_assoc]

lemma create_ico_file_eq' (enc : Bitmap → List Nat) (imgs : List Bitmap) :
    create_ico_file enc imgs
      = (pack16 0 ++ (pack16 1 ++ pack16 imgs.length))
        ++ (entriesBytes (imgs.map fun b => (b, enc b)) (6 + 16 * imgs.length)
            ++ (imgs.map enc).flatten) := by
  rw [create_ico_file_eq]
  simp [List.append_assoc]

lemma create_header_fields (enc : Bitmap → List Nat) (imgs : List Bitmap)
    (hcount : imgs.length < 65536) :
    readU16 (create_ico_file enc imgs) 2 = 1
      ∧ readU16 (create_ico_file enc imgs) 4 = imgs.length := by
  rw [create_ico_file_eq]
  constructor
  · rw [readU16_after (pack16 0) _ 0 2 (by simp [pack16])]
    exact readU16_pack16 1 (by omega) _
  · rw [readU16_after (pack16 0) _ 2 4 (by simp [pack16]),
      readU16_after (pack16 1) _ 0 2 (by simp [pack16])]
    exact readU16_pack16 imgs.length hcount _

lemma create_ico_file_length (enc : Bitmap → List Nat) (imgs : List Bitmap) :
    (create_ico_file enc imgs).length
      = 6 + 16 * imgs.length + ((imgs.map fun b => (enc b).length).sum) := by
  rw [create_ico_file_eq]
  simp only [List.length_append, entriesBytes_length, List.length_map,
    List.length_flatten, List.map_map, pack16]
  have hc : (List.length ∘ enc) = fun b => (enc b).length := rfl
  rw [hc]
  simp
  omega

lemma entriesBytes_size_field (pairs : List (Bitmap × List Nat)) (tail : List Nat)
    (off i : Nat) (hi : i < pairs.length)
    (hsz : ∀ p ∈ pairs, p.2.length < 4294967296) :
    readU32 (entriesBytes pairs off ++ tail) (16 * i + 8) = pairs[i].2.length := by
  induction pairs generalizing off i with
  | nil => exact absurd hi (by simp)
  | cons p rest ih =>
      obtain ⟨img, png⟩ := p
      match i with
      | 0 =>
          have he : entriesBytes ((img, png) :: rest) off ++ tail
              = [encDim img.width, encDim img.height, 0, 0, 1, 0, 32, 0]
                ++ (pack32 png.length
                  ++ (pack32 off ++ (entriesBytes rest (off + png.length) ++ tail))) := by
            simp [entriesBytes, dirEntry, pack16, List.append_assoc]
          rw [he, readU32_after _ _ 0 _ (by simp),
            readU32_pack32 _ (hsz (img, png) (by simp)) _]
          rfl
      | j + 1 =>
          have he : entriesBytes ((img, png) :: rest) off ++ tail
              = dirEntry img png.length off
                ++ (entriesBytes rest (off + png.length) ++ tail) := by
            simp [entriesBytes]
          rw [he, readU32_after _ _ (16 * j + 8) _ (by rw [dirEntry_length]; omega)]
          rw [ih (off + png.length) j (by simpa using hi)
            (fun q hq => hsz q (by simp [hq]))]
          simp

lemma entriesBytes_offset_field (pairs : List (Bitmap × List Nat)) (tail : List Nat)
    (off i : Nat) (hi : i < pairs.length)
    (hoff : off + ((pairs.map fun p => p.2.length).sum) < 4294967296) :
    readU32 (entriesBytes pairs off ++ tail) (16 * i + 12)
      = off + ((pairs.take i).map fun p => p.2.length).sum := by
  induction pairs generalizing off i with
  | nil => exact absurd hi (by simp)
  | cons p rest ih =>
      obtain ⟨img, png⟩ := p
      match i with
      | 0 =>
          have he : entriesBytes ((img, png) :: rest) off ++ tail
              = ([encDim img.width, encDim img.height, 0, 0, 1, 0, 32, 0]
                  ++ pack32 png.length)
                ++ (pack32 off ++ (entriesBytes rest (off + png.length) ++ tail)) := by
            simp [entriesBytes, dirEntry, pack16, List.append_assoc]
          rw [he, readU32_after _ _ 0 _ (by simp [pack32]),
            readU32_pack32 _ (by omega) _]
          simp
      | j + 1 =>
          have he : entriesBytes ((img, png) :: rest) off ++ tail
              = dirEntry img png.length off
                ++ (entriesBytes rest (off + png.length) ++ tail) := by
            simp [entriesBytes]
          have hoff' : (off + png.length) + ((rest.map fun p => p.2.length).sum)
              < 4294967296 := by
            simp only [List.map_cons, List.sum_cons] at hoff
            omega
          rw [he, readU32_after _ _ (16 * j + 12) _ (by rw [dirEntry_length]; omega)]
          rw [ih (off + png.length) j (by simpa using hi) hoff']
          simp only [List.take_succ_cons, List.map_cons, List.sum_cons]
          omega

lemma sum_take_last (L : List Nat) (k : Nat) (hk : k < L.length)
    (hk1 : k + 1 = L.length) :
    (L.take k).sum + L[k] = L.sum := by
  have h := List.sum_take_add_sum_drop L k
  rw [List.drop_eq_getElem_cons hk, List.drop_eq_nil_of_le (by omega)] at h
  simpa using h

lemma parseEntries_cons2 (a b a' b' : Nat) (rest : List Nat) (count p : Nat) :
    parseEntries (a :: b :: rest) (p + 2) count
      = parseEntries (a' :: b' :: rest) (p + 2) count := by
  induction count generalizing p with
  | zero => rfl
  | succ c ih =>
      simp only [parseEntries, List.length_cons]
      by_cases h : rest.length + 1 + 1 < p + 2 + 16
      · rw [if_pos h, if_pos h]
      · rw [if_neg h, if_neg h,
          show p + 2 + 16 = p + 16 + 2 by omega, ih (p + 16)]
        rfl

lemma verify_retval (bs : List Nat) (h6 : 6 ≤ bs.length) (htype : readU16 bs 2 = 1) :
    (verify_ico_structure (some bs)).retval
      = if sortPairs (parseEntries bs 6 (readU16 bs 4)).1 = expected_sizes then true
        else decide ((parseEntries bs 6 (readU16 bs 4)).1.length ≥ 2) := by
  rw [verify_ico_structure_eq bs h6 htype]
  split <;> rfl

lemma verify_warned (bs : List Nat) (h6 : 6 ≤ bs.length) (htype : readU16 bs 2 = 1) :
    (verify_ico_structure (some bs)).warned
      = if sortPairs (parseEntries bs 6 (readU16 bs 4)).1 = expected_sizes then false
        else true := by
  rw [verify_ico_structure_eq bs h6 htype]
  split <;> rfl

/-! ## Claim theorems -/

/-- C4: the encoder stores a dimension byte as the bitmap dimension when
it is below 256 and as 0 when it equals 256 (in particular 256 ↦ 0,
255 ↦ 255, 48 ↦ 48), and the verifier inverts this, reconstructing byte 0
as 256, so that every dimension in 1..256 round-trips. -/
theorem C4_dimension_encoding :
    encDim 256 = 0 ∧ encDim 255 = 255 ∧ encDim 48 = 48 ∧ actualDim 0 = 256
      ∧ ∀ s : Nat, 1 ≤ s → s ≤ 256 → actualDim (encDim s) = s := by
  refine ⟨rfl, rfl, rfl, rfl, ?_⟩
  intro s h1 h2
  rcases Nat.lt_or_ge s 256 with h | h
  · rw [encDim, if_pos h, actualDim, if_neg (by omega)]
  · have hs : s = 256 := by omega
    subst hs
    rfl

/-- Witness for C4 at the concrete dimensions 256 and 1. -/
theorem C4_dimension_encoding_witness :
    actualDim (encDim 256) = 256 ∧ actualDim (encDim 1) = 1 :=
  ⟨C4_dimension_encoding.2.2.2.2 256 (by decide) (by decide),
   C4_dimension_encoding.2.2.2.2 1 (by decide) (by decide)⟩

/-- C1: encoding square bitmaps with sizes in 1..256 and parsing the
result with the verifier's directory reader yields the same list of
(width, height) pairs — same count, same pairs, same order.  The range
hypotheses are those under which the Python `struct.pack` calls succeed
(count in a 2-byte field, sizes/offsets in 4-byte fields). -/
theorem C1_roundtrip (enc : Bitmap → List Nat) (imgs : List Bitmap)
    (hsq : ∀ b ∈ imgs, b.width = b.height)
    (hdim : ∀ b ∈ imgs, 1 ≤ b.width ∧ b.width ≤ 256)
    (hcount : imgs.length < 65536)
    (hfit : 6 + 16 * imgs.length + ((imgs.map fun b => (enc b).length).sum)
      < 4294967296) :
    (verify_ico_structure (some (create_ico_file enc imgs))).sizes
        = imgs.map (fun b => (b.width, b.height))
      ∧ (verify_ico_structure (some (create_ico_file enc imgs))).sizes.length
          = imgs.length := by
  have h6 : 6 ≤ (create_ico_file enc imgs).length := by
    rw [create_ico_file_length]
    omega
  obtain ⟨ht, hc⟩ := create_header_fields enc imgs hcount
  have hparse : parseEntries (create_ico_file enc imgs) 6 imgs.length
      = ((imgs.map fun b => (b, enc b)).map
          (fun p => (actualDim (encDim p.1.width), actualDim (encDim p.1.height))),
         false) := by
    have h6l : (6 : Nat)
        = (pack16 0 ++ (pack16 1 ++ pack16 imgs.length)).length := by
      simp [pack16]
    have hN : imgs.length = (imgs.map fun b => (b, enc b)).length := by simp
    rw [create_ico_file_eq']
    conv_lhs => rw [h6l, hN]
    exact parseEntries_entriesBytes _ _ _ _
  have hmap : ((imgs.map fun b => (b, enc b)).map
        (fun p => (actualDim (encDim p.1.width), actualDim (encDim p.1.height))))
      = imgs.map (fun b => (b.width, b.height)) := by
    rw [List.map_map]
    apply List.map_congr_left
    intro b hb
    have h1 := (hdim b hb).1
    have h2 := (hdim b hb).2
    have hsq' := hsq b hb
    simp only [Function.comp_apply]
    rw [← hsq', actualDim_encDim b.width h1 h2]
  have hsz : (verify_ico_structure (some (create_ico_file enc imgs))).sizes
      = imgs.map (fun b => (b.width, b.height)) := by
    rw [verify_sizes _ h6 ht, hc, hparse, hmap]
  exact ⟨hsz, by rw [hsz, List.length_map]⟩

/-- Witness for C1: two square bitmaps of sizes 256 and 16 round-trip. -/
theorem C1_roundtrip_witness :
    (verify_ico_structure (some (create_ico_file (fun b => [b.width % 256, 0])
        [⟨256, 256⟩, ⟨16, 16⟩]))).sizes = [(256, 256), (16, 16)]
      ∧ (verify_ico_structure (some (create_ico_file (fun b => [b.width % 256, 0])
          [⟨256, 256⟩, ⟨16, 16⟩]))).sizes.length = 2 := by
  have h := C1_roundtrip (fun b => [b.width % 256, 0]) [⟨256, 256⟩, ⟨16, 16⟩]
    (by decide) (by decide) (by decide) (by decide)
  simpa using h

/-- C2: the directory entry for image `i` carries payload-size equal to
the byte length of payload `i` and offset `6 + 16·N + Σ_{j<i} size_j`, and
the last entry's offset plus its size equals the total stream length. -/
theorem C2_offset_correctness (enc : Bitmap → List Nat) (imgs : List Bitmap)
    (hfit : 6 + 16 * imgs.length + ((imgs.map fun b => (enc b).length).sum)
      < 4294967296) :
    (∀ i, ∀ hi : i < imgs.length,
        readU32 (create_ico_file enc imgs) (6 + (16 * i + 8)) = (enc imgs[i]).length
      ∧ readU32 (create_ico_file enc imgs) (6 + (16 * i + 12))
          = 6 + 16 * imgs.length + ((imgs.take i).map fun b => (enc b).length).sum)
    ∧ (0 < imgs.length →
        readU32 (create_ico_file enc imgs) (6 + (16 * (imgs.length - 1) + 12))
          + readU32 (create_ico_file enc imgs) (6 + (16 * (imgs.length - 1) + 8))
        = (create_ico_file enc imgs).length) := by
  have hsum : ((imgs.map fun b => (b, enc b)).map fun p => p.2.length)
      = imgs.map fun b => (enc b).length := by
    simp [List.map_map, Function.comp]
  have hmain : ∀ i, ∀ hi : i < imgs.length,
      readU32 (create_ico_file enc imgs) (6 + (16 * i + 8)) = (enc imgs[i]).length
      ∧ readU32 (create_ico_file enc imgs) (6 + (16 * i + 12))
          = 6 + 16 * imgs.length + ((imgs.take i).map fun b => (enc b).length).sum := by
    intro i hi
    have hsz : ∀ p ∈ (imgs.map fun b => (b, enc b)), p.2.length < 4294967296 := by
      intro p hp
      obtain ⟨b, hb, rfl⟩ := List.mem_map.mp hp
      show (enc b).length < 4294967296
      have hmem : (enc b).length ∈ (imgs.map fun b => (enc b).length) :=
        List.mem_map_of_mem _ hb
      have := List.single_le_sum (fun x _ => Nat.zero_le x) _ hmem
      omega
    have hi' : i < (imgs.map fun b => (b, enc b)).length := by simpa using hi
    have hoff : (6 + 16 * imgs.length)
        + (((imgs.map fun b => (b, enc b)).map fun p => p.2.length).sum)
        < 4294967296 := by
      rw [hsum]
      omega
    constructor
    · rw [create_ico_file_eq',
        readU32_after _ _ (16 * i + 8) _ (by simp [pack16]),
        entriesBytes_size_field _ _ _ i hi' hsz, List.getElem_map]
    · rw [create_ico_file_eq',
        readU32_after _ _ (16 * i + 12) _ (by simp [pack16]),
        entriesBytes_offset_field _ _ _ i hi' hoff]
      have htake : (((imgs.map fun b => (b, enc b)).take i).map fun p => p.2.length)
          = (imgs.take i).map fun b => (enc b).length := by
        rw [← List.map_take, List.map_map]
        rfl
      rw [htake]
  refine ⟨hmain, ?_⟩
  intro hpos
  have hlt : imgs.length - 1 < imgs.length := by omega
  obtain ⟨hsize, hoffv⟩ := hmain (imgs.length - 1) hlt
  rw [hsize, hoffv, create_ico_file_length]
  have hL : (imgs.map fun b => (enc b).length).length = imgs.length := by simp
  have hlt' : imgs.length - 1 < (imgs.map fun b => (enc b).length).length := by
    omega
  have hsum2 := sum_take_last (imgs.map fun b => (enc b).length)
    (imgs.length - 1) hlt' (by omega)
  rw [List.getElem_map] at hsum2
  rw [← List.map_take] at hsum2
  omega

/-- Witness for C2: two bitmaps with 2-byte payloads; entry 1 has size 2
and offset 40, and 40 + 2 is the 42-byte total stream length. -/
theorem C2_offset_correctness_witness :
    readU32 (create_ico_file (fun _ => [7, 8]) [⟨16, 16⟩, ⟨24, 24⟩]) (6 + (16 * 1 + 8))
        = 2
      ∧ readU32 (create_ico_file (fun _ => [7, 8]) [⟨16, 16⟩, ⟨24, 24⟩]) (6 + (16 * 1 + 12))
          = 40
      ∧ readU32 (create_ico_file (fun _ => [7, 8]) [⟨16, 16⟩, ⟨24, 24⟩]) (6 + (16 * 1 + 12))
          + readU32 (create_ico_file (fun _ => [7, 8]) [⟨16, 16⟩, ⟨24, 24⟩]) (6 + (16 * 1 + 8))
        = (create_ico_file (fun _ => [7, 8]) [⟨16, 16⟩, ⟨24, 24⟩]).length := by
  have h := C2_offset_correctness (fun _ => [7, 8]) [⟨16, 16⟩, ⟨24, 24⟩] (by decide)
  obtain ⟨h1, h2⟩ := h.1 1 (by decide)
  refine ⟨by simpa using h1, by simpa using h2, by simpa using h.2 (by decide)⟩

/-- C3 counterexample: `create_ico_file` performs no input validation.
A non-square 16×32 bitmap and an oversized 300×300 bitmap are both
encoded into complete byte streams instead of being rejected; the 300×300
case even yields a corrupt stream that decodes as 256×256. -/
theorem C3_counterexample :
    (16 : Nat) ≠ 32
      ∧ create_ico_file (fun _ => [137]) [⟨16, 32⟩]
          = [0, 0, 1, 0, 1, 0,
             16, 32, 0, 0, 1, 0, 32, 0, 1, 0, 0, 0, 22, 0, 0, 0, 137]
      ∧ (300 : Nat) > 256
      ∧ create_ico_file (fun _ => [1]) [⟨300, 300⟩]
          = [0, 0, 1, 0, 1, 0,
             0, 0, 0, 0, 1, 0, 32, 0, 1, 0, 0, 0, 22, 0, 0, 0, 1]
      ∧ (verify_ico_structure (some (create_ico_file (fun _ => [1])
          [⟨300, 300⟩]))).sizes = [(256, 256)] := by
  decide

/-- C3 amended: the encoder never rejects its input — for every list of
bitmaps, square or not, within range or not, it emits the complete
`6 + 16·N + Σ payload` byte stream; validity of the dimensions is the
caller's responsibility. -/
theorem C3_amended_no_validation (enc : Bitmap → List Nat) (imgs : List Bitmap) :
    (create_ico_file enc imgs).length
      = 6 + 16 * imgs.length + ((imgs.map fun b => (enc b).length).sum) :=
  create_ico_file_length enc imgs

/-- C5 counterexample: a file whose header has `reserved = 7` (nonzero)
but `type = 1` is fully parsed and verified successfully — the reserved
field is never validated. -/
theorem C5_counterexample_reserved_ignored :
    readU16 reservedSevenFile 0 = 7
      ∧ verify_ico_structure (some reservedSevenFile)
          = ⟨true, false, false, false, false,
             [(16, 16), (24, 24), (32, 32), (48, 48)]⟩ := by
  decide

/-- C5 amended: the verifier validates only `type == 1` from the header.
The reserved bytes (0..1) are read and printed but never checked — the
result is identical for any values there — while `type ≠ 1` yields the
structural failure with no directory parsing. -/
theorem C5_amended_type_only :
    (∀ (a b a' b' : Nat) (rest : List Nat),
        verify_ico_structure (some (a :: b :: rest))
          = verify_ico_structure (some (a' :: b' :: rest)))
      ∧ ∀ bs : List Nat, 6 ≤ bs.length → readU16 bs 2 ≠ 1 →
          verify_ico_structure (some bs) = ⟨false, true, false, false, false, []⟩ := by
  constructor
  · intro a b a' b' rest
    simp only [verify_ico_structure, List.length_cons]
    by_cases h6 : rest.length + 1 + 1 < 6
    · rw [if_pos h6, if_pos h6]
    · rw [if_neg h6, if_neg h6]
      have ht : readU16 (a :: b :: rest) 2 = readU16 (a' :: b' :: rest) 2 := rfl
      have hc : readU16 (a :: b :: rest) 4 = readU16 (a' :: b' :: rest) 4 := rfl
      have hp : parseEntries (a :: b :: rest) 6 (readU16 (a :: b :: rest) 4)
          = parseEntries (a' :: b' :: rest) 6 (readU16 (a' :: b' :: rest) 4) := by
        rw [hc, show (6 : Nat) = 4 + 2 from rfl]
        exact parseEntries_cons2 a b a' b' rest _ 4
      rw [ht, hp]
  · intro bs h6 ht
    simp only [verify_ico_structure]
    rw [if_neg (by omega), if_pos ht]

/-- Witness for C5 amended: changing the reserved bytes from 5,5 to 0,0
leaves the verdict unchanged, and a type-2 (cursor) header fails. -/
theorem C5_amended_type_only_witness :
    verify_ico_structure (some (5 :: 5 :: [1, 0, 0, 0]))
        = verify_ico_structure (some (0 :: 0 :: [1, 0, 0, 0]))
      ∧ verify_ico_structure (some [0, 0, 2, 0, 0, 0])
          = ⟨false, true, false, false, false, []⟩ :=
  ⟨C5_amended_type_only.1 5 5 0 0 [1, 0, 0, 0],
   C5_amended_type_only.2 [0, 0, 2, 0, 0, 0] (by decide) (by decide)⟩

/-- C6: when the declared count requires more directory bytes than the
file holds, the verifier reports the incomplete-entry error and stops
scanning at the first short read — it collects exactly the number of full
16-byte entries available, strictly fewer than declared, with the
diagnostic reported rather than silence. -/
theorem C6_truncation_detected (bs : List Nat) (h6 : 6 ≤ bs.length)
    (htype : readU16 bs 2 = 1)
    (htrunc : bs.length < 6 + 16 * readU16 bs 4) :
    (verify_ico_structure (some bs)).truncError = true
      ∧ (verify_ico_structure (some bs)).sizes.length = (bs.length - 6) / 16
      ∧ (verify_ico_structure (some bs)).sizes.length < readU16 bs 4 := by
  have hflag := verify_truncFlag bs h6 htype
  have hsz := verify_sizes bs h6 htype
  have h2 := parseEntries_snd_iff bs (readU16 bs 4) 6
  have h1 := parseEntries_fst_length bs (readU16 bs 4) 6
  refine ⟨?_, ?_, ?_⟩
  · rw [hflag]
    exact h2.mpr ⟨by omega, by omega⟩
  · rw [hsz, h1]
    omega
  · rw [hsz, h1]
    omega

/-- Witness for C6: a 25-byte file declaring 3 entries but holding one
full entry plus 3 stray bytes triggers the truncation diagnostic. -/
theorem C6_truncation_detected_witness :
    (verify_ico_structure (some ([0, 0, 1, 0, 3, 0] ++ sampleEntry 16
        ++ [9, 9, 9]))).truncError = true
      ∧ (verify_ico_structure (some ([0, 0, 1, 0, 3, 0] ++ sampleEntry 16
          ++ [9, 9, 9]))).sizes.length = 1
      ∧ (verify_ico_structure (some ([0, 0, 1, 0, 3, 0] ++ sampleEntry 16
          ++ [9, 9, 9]))).sizes.length < 3 := by
  have h := C6_truncation_detected ([0, 0, 1, 0, 3, 0] ++ sampleEntry 16 ++ [9, 9, 9])
    (by decide) (by decide) (by decide)
  exact ⟨h.1, by simpa using h.2.1, by simpa [readU16, readByte, sampleEntry] using h.2.2⟩

/-- C7 (code bug): at the rasterized size 16, `draw_coffee_cup` in
`convert_icons_pil.py` computes `cup_radius = int(2 * (16/48)) = 0` and
`surface_ry = 0` — degenerate zero-radius features — whereas the clamped
rewrite of the same function in `create_multisize_ico.py` yields 1 for
both, matching the claimed invariant. -/
theorem C7_unclamped_radius_at_size16 :
    (draw_coffee_cup_pil_geom 16).cup_radius = 0
      ∧ (draw_coffee_cup_pil_geom 16).surface_ry = 0
      ∧ (draw_coffee_cup_geom 16).cup_radius = 1
      ∧ (draw_coffee_cup_geom 16).surface_ry = 1 := by
  decide

/-- C8: the batch loop of `convert_icons.py` processes every icon exactly
once regardless of what happens to the others — a missing source file
yields a warning-and-skip outcome, an exception during conversion yields
a logged-error outcome, and in both cases the loop result around the
failing icon is exactly the concatenation of the unaffected parts. -/
theorem C8_batch_isolation (env : BatchEnv) (pre post : List String) (bad : String) :
    mainLoop env (pre ++ bad :: post)
        = mainLoop env pre ++ processIcon env bad :: mainLoop env post
      ∧ (env.existsFile bad = false → processIcon env bad = .skipped)
      ∧ ∀ e, env.existsFile bad = true → env.convert bad = .error e →
          processIcon env bad = .errorLogged := by
  refine ⟨?_, ?_, ?_⟩
  · induction pre with
    | nil => rfl
    | cons x xs ih => simp [mainLoop, ih]
  · intro h
    simp [processIcon, h]
  · intro e h1 h2
    simp [processIcon, h1, h2]

/-- Witness for C8: in `envW` the icon "missing" is skipped, "bad" raises
and is logged, and the loop over all three still visits every icon. -/
theorem C8_batch_isolation_witness :
    mainLoop envW (["ok"] ++ "missing" :: ["bad"])
        = mainLoop envW ["ok"] ++ processIcon envW "missing" :: mainLoop envW ["bad"]
      ∧ processIcon envW "missing" = .skipped
      ∧ processIcon envW "bad" = .errorLogged := by
  have h := C8_batch_isolation envW ["ok"] ["bad"] "missing"
  have h' := C8_batch_isolation envW [] [] "bad"
  exact ⟨h.1, h.2.1 (by decide), h'.2.2 "boom" (by decide) rfl⟩

/-- C9 (implicit): with a type-1 header and a complete directory, a size
set differing from the expected `{(16,16),(24,24),(32,32),(48,48)}` still
verifies successfully whenever at least 2 entries were read (with the
warning printed), and success without the warning happens exactly when
the sorted entry list equals the expected four-element list. -/
theorem C9_lenient_verdict (bs : List Nat) (h6 : 6 ≤ bs.length)
    (htype : readU16 bs 2 = 1)
    (hwf : 6 + 16 * readU16 bs 4 ≤ bs.length) :
    (¬ (∀ x, x ∈ (verify_ico_structure (some bs)).sizes ↔ x ∈ expected_sizes) →
        (verify_ico_structure (some bs)).retval
            = decide (2 ≤ (verify_ico_structure (some bs)).sizes.length)
          ∧ (verify_ico_structure (some bs)).warned = true)
      ∧ ((verify_ico_structure (some bs)).retval = true
            ∧ (verify_ico_structure (some bs)).warned = false
          ↔ sortPairs (verify_ico_structure (some bs)).sizes = expected_sizes) := by
  have hr := verify_retval bs h6 htype
  have hw := verify_warned bs h6 htype
  have hsz := verify_sizes bs h6 htype
  by_cases hs : sortPairs (parseEntries bs 6 (readU16 bs 4)).1 = expected_sizes
  · constructor
    · intro hne
      exfalso
      apply hne
      intro x
      rw [hsz, ← hs]
      exact ((sortPairs_perm _).mem_iff).symm
    · rw [hr, hw, hsz, if_pos hs, if_pos hs]
      simp [hs]
  · constructor
    · intro _
      rw [hr, hw, hsz, if_neg hs, if_neg hs]
      exact ⟨by norm_num, rfl⟩
    · rw [hr, hw, hsz, if_neg hs, if_neg hs]
      simp [hs]

/-- Witness for C9: a file with two 16×16 entries (not the expected set)
still returns success, with the warning branch taken. -/
theorem C9_lenient_verdict_witness :
    (verify_ico_structure (some ([0, 0, 1, 0, 2, 0] ++ sampleEntry 16
        ++ sampleEntry 16))).retval = true
      ∧ (verify_ico_structure (some ([0, 0, 1, 0, 2, 0] ++ sampleEntry 16
          ++ sampleEntry 16))).warned = true := by
  have h := C9_lenient_verdict ([0, 0, 1, 0, 2, 0] ++ sampleEntry 16 ++ sampleEntry 16)
    (by decide) (by decide) (by decide)
  have hne : ¬ (∀ x, x ∈ (verify_ico_structure (some ([0, 0, 1, 0, 2, 0]
      ++ sampleEntry 16 ++ sampleEntry 16))).sizes ↔ x ∈ expected_sizes) := by
    intro hall
    exact absurd ((hall (24, 24)).mpr (by decide)) (by decide)
  obtain ⟨hr, hw⟩ := h.1 hne
  exact ⟨by rw [hr]; decide, hw⟩

/-- C10 (implicit): the two paths on which the Python code can raise —
`open` failing (missing file) and `struct.unpack` on a header shorter
than 6 bytes — are both caught by the `except Exception` handler, which
prints the read-error diagnostic and returns `False`; the function never
propagates an exception. -/
theorem C10_exceptions_caught :
    verify_ico_structure none = ⟨false, false, false, false, true, []⟩
      ∧ ∀ bs : List Nat, bs.length < 6 →
          verify_ico_structure (some bs) = ⟨false, false, false, false, true, []⟩ := by
  refine ⟨rfl, ?_⟩
  intro bs h
  simp only [verify_ico_structure]
  rw [if_pos h]

/-- Witness for C10: a 3-byte file returns `False` with the read-error
diagnostic. -/
theorem C10_exceptions_caught_witness :
    verify_ico_structure (some [0, 0, 1]) = ⟨false, false, false, false, true, []⟩ :=
  C10_exceptions_caught.2 [0, 0, 1] (by decide)
